import Mathlib

/-!
Verification of the self-update subsystem of `tasklog`
(`internal/updater/updater.go`).

The Go code is embedded shallowly:

* pure helpers (`determineChannel`, `shouldCheckForUpdate`,
  `getAssetNameForPlatform`, the asset-selection loop of `GetUpdateInfo`)
  become Lean functions translated line by line from the source;
* the filesystem effects of `downloadAndReplace` / `copyFile` /
  `verifyChecksum` / `PerformUpgrade` are modelled by explicit state
  passing over an association-list filesystem, with the outcome of each
  external operation (executable resolution, temp-file creation,
  network download, chmod, rename) supplied by an `InstallEnv` record;
* the release source (`internal/github`) is the external collaborator
  and is supplied as a `GHEnv` record of responses;
* `version.go` is not among the sources, so the `Version` value type is
  modelled from the specification (each such definition is marked).

Go string primitives (`strings.Split`, `strings.Contains`,
`strings.TrimSpace`) are modelled on character lists so that all
definitions evaluate by kernel reduction.
-/

/-! ## Go string primitives -/

/-- Splitting a character list at a separator character; mirrors Go
`strings.Split` for a single-character separator (the only separators the
source uses are `"."` and `"-"`).  The result is always non-empty and
splitting the empty list yields `[[]]`, as in Go. -/
def splitOnChar (sep : Char) : List Char → List (List Char)
  | [] => [[]]
  | c :: cs =>
    if c = sep then [] :: splitOnChar sep cs
    else
      match splitOnChar sep cs with
      | [] => [[c]]
      | h :: t => (c :: h) :: t

/-- Go `strings.Split s sep` for a single-character separator. -/
def goSplit (s : String) (sep : Char) : List String :=
  (splitOnChar sep s.toList).map (fun cs => String.mk cs)

/-- Whether `sub` occurs as a prefix of `hay` (character lists). -/
def prefChars : List Char → List Char → Bool
  | [], _ => true
  | _ :: _, [] => false
  | a :: as, b :: bs => a = b && prefChars as bs

/-- Whether `sub` occurs as a contiguous sublist of `hay`. -/
def containsChars (hay sub : List Char) : Bool :=
  match hay with
  | [] => sub.isEmpty
  | _ :: rest => prefChars sub hay || containsChars rest sub

/-- Go `strings.Contains`. -/
def goContains (s sub : String) : Bool :=
  containsChars s.toList sub.toList

/-- Go `strings.TrimSpace`. -/
def goTrimSpace (s : String) : String :=
  String.mk (((s.toList.dropWhile Char.isWhitespace).reverse.dropWhile
    Char.isWhitespace).reverse)

/-! ## Version values (modelled from the spec: `version.go` is absent) -/

/-- Modelled from the spec: `version.go` is not among the sources.  §3 of
the specification: a semantic version is major/minor/patch (non-negative
integers) plus an optional pre-release label. -/
structure Version where
  major : Nat
  minor : Nat
  patch : Nat
  prerelease : String
deriving DecidableEq, Repr

/-- Numeric value of a non-empty all-digit character list. -/
def natOfDigits (l : List Char) : Option Nat :=
  if l ≠ [] ∧ l.all (fun c => c.isDigit) then
    some (l.foldl (fun acc c => acc * 10 + (c.toNat - 48)) 0)
  else none

/-- Rejoin dash-separated fragments, used to recover the raw pre-release
label after splitting at the first dash. -/
def joinDash : List (List Char) → List Char
  | [] => []
  | [x] => x
  | x :: xs => x ++ '-' :: joinDash xs

/-- Modelled from the spec: `version.go` (the `ParseVersion` function) is
not among the sources.  §4.1: parsing fails unless the text is a strict
`major.minor.patch[-prerelease]` form; a leading `v` is tolerated and
stripped. -/
def ParseVersion (s : String) : Option Version :=
  let chars := s.toList
  let t := match chars with
    | 'v' :: rest => rest
    | _ => chars
  match splitOnChar '-' t with
  | [] => none
  | core :: preParts =>
    match splitOnChar '.' core with
    | [a, b, c] =>
      match natOfDigits a, natOfDigits b, natOfDigits c with
      | some ma, some mi, some pa =>
        let pre := joinDash preParts
        if preParts ≠ [] ∧ pre = [] then none
        else some ⟨ma, mi, pa, String.mk pre⟩
      | _, _, _ => none
    | _ => none

/-- Modelled from the spec: `version.go` (the `String` method) is not
among the sources.  §4.1: the canonical text form. -/
def Version.render (v : Version) : String :=
  Nat.repr v.major ++ "." ++ Nat.repr v.minor ++ "." ++ Nat.repr v.patch ++
    (if v.prerelease = "" then "" else "-" ++ v.prerelease)

/-- Numeric counter of a pre-release label (the part after the first dot). -/
def channelCounter (pre : String) : Nat :=
  (natOfDigits ((goSplit pre '.').getD 1 "").toList).getD 0

/-- Modelled from the spec: `version.go` (the `IsNewerThan` method) is not
among the sources.  §3: compare major/minor/patch numerically; for an
equal triple a stable version is newer than any pre-release, and among
pre-releases the channel name is compared lexically with the numeric
counter breaking ties. -/
def Version.isNewerThan (v other : Version) : Bool :=
  if v.major ≠ other.major then decide (other.major < v.major)
  else if v.minor ≠ other.minor then decide (other.minor < v.minor)
  else if v.patch ≠ other.patch then decide (other.patch < v.patch)
  else if v.prerelease = "" then decide (other.prerelease ≠ "")
  else if other.prerelease = "" then false
  else
    let vch := (goSplit v.prerelease '.').headD ""
    let och := (goSplit other.prerelease '.').headD ""
    if vch ≠ och then decide (och < vch)
    else decide (channelCounter other.prerelease < channelCounter v.prerelease)

/-! ## Data model (translated from `updater.go`) -/

/-- `UpdateInfo` from `updater.go`. -/
structure UpdateInfo where
  CurrentVersion : String
  LatestVersion : String
  ReleaseURL : String
  ReleaseNotes : String
  DownloadURL : String
  AssetName : String
  IsPreRelease : Bool
deriving DecidableEq, Repr

/-- `UpdateNotification` from `updater.go`. -/
structure UpdateNotification where
  Available : Bool
  CurrentVersion : String
  LatestVersion : String
  IsPreRelease : Bool
  ReleaseURL : String
deriving DecidableEq, Repr

/-- `UpdateCache` from `updater.go`; the `last_check` timestamp is a point
on an abstract integer timeline. -/
structure UpdateCache where
  LastCheck : Int
  UpdateAvailable : Bool
  CurrentVersion : String
  LatestVersion : String
  IsPreRelease : Bool
  ReleaseURL : String
  Dismissed : Bool
deriving DecidableEq, Repr

/-- An asset of a GitHub release (`internal/github.Asset`). -/
structure Asset where
  Name : String
  BrowserDownloadURL : String
deriving DecidableEq, Repr

/-- A GitHub release (`internal/github.Release`), restricted to the fields
the updater reads. -/
structure Release where
  TagName : String
  Body : String
  Prerelease : Bool
  Assets : List Asset
deriving DecidableEq, Repr

/-- The release-source collaborator: the responses the GitHub client
would return during one run. -/
structure GHEnv where
  GetLatestRelease : Except String Release
  GetLatestPreRelease : String → Except String Release
  GetReleaseURL : String → String

/-! ## Channel policy and throttling (translated from `updater.go`) -/

/-- `determineChannel` from `updater.go` (lines 297–318). -/
def determineChannel (currentVersion : Version) (configChannel : String) : String :=
  if configChannel ≠ "" ∧ configChannel ≠ "stable" then configChannel
  else
    if currentVersion.prerelease ≠ "" then
      let parts := goSplit currentVersion.prerelease '.'
      if parts.length > 0 then
        let channel := parts.headD ""
        if channel = "alpha" ∨ channel = "beta" ∨ channel = "rc" then channel
        else ""
      else ""
    else ""

/-- The channel-selection policy exactly as the claim states it: an
explicit non-`stable` configured channel wins verbatim; otherwise a
recognized pre-release channel (alpha/beta/rc) of the running version is
kept; otherwise the empty (stable) channel. -/
def DetermineChannelSpec (currentVersion : Version) (configChannel : String) : String :=
  if configChannel ≠ "" ∧ configChannel ≠ "stable" then configChannel
  else
    if currentVersion.prerelease ≠ ""
        ∧ ((goSplit currentVersion.prerelease '.').headD "" = "alpha"
           ∨ (goSplit currentVersion.prerelease '.').headD "" = "beta"
           ∨ (goSplit currentVersion.prerelease '.').headD "" = "rc") then
      (goSplit currentVersion.prerelease '.').headD ""
    else ""

/-- `shouldCheckForUpdate` from `updater.go` (lines 460–466):
`time.Since(cache.LastCheck) > u.checkInterval`, where `time.Since` is the
difference between the current instant and the recorded one. -/
def shouldCheckForUpdate (interval now : Int) : Option UpdateCache → Bool
  | none => true
  | some cache => decide (now - cache.LastCheck > interval)

/-! ## Filesystem model -/

/-- Payload bytes of a file. -/
abbrev Bytes := List Nat

/-- A file: its content and its permission mode. -/
structure File where
  content : Bytes
  mode : Nat
deriving DecidableEq, Repr

/-- A filesystem: an association list from paths to files. -/
abbrev FS := List (String × File)

/-- The file stored at a path, if any. -/
def fsRead (fs : FS) (p : String) : Option File :=
  match fs with
  | [] => none
  | (q, f) :: rest => if q = p then some f else fsRead rest p

/-- Remove every entry at a path. -/
def fsRemove (fs : FS) (p : String) : FS :=
  match fs with
  | [] => []
  | (q, f) :: rest => if q = p then fsRemove rest p else (q, f) :: fsRemove rest p

/-- Create or overwrite the file at a path. -/
def fsWrite (fs : FS) (p : String) (f : File) : FS :=
  (p, f) :: fsRemove fs p

/-! ## Installer (translated from `updater.go`) -/

/-- Outcomes of the external operations one `downloadAndReplace` run
performs, in program order: resolving the executable, the write-permission
probe, temp-file creation, the asset download, the checksum temp file and
checksum download, the hash function, chmod, backup creation and the final
rename. -/
structure InstallEnv where
  execPath : Except String String
  resolvedPath : Except String String
  writePermOk : Bool
  tmpCreate : Except String String
  download : Except String Bytes
  chksTmpCreate : Except String String
  chksDownload : Except String String
  sha256hex : Bytes → String
  chmodOk : Bool
  backupCreateOk : Bool
  renameOk : Bool

/-- Result of `downloadAndReplace` (and of `PerformUpgrade`): the final
filesystem, the returned backup path and error, and whether the checksum
verification step was entered. -/
structure DARResult where
  fs : FS
  backupPath : String
  err : Option String
  checksumVerified : Bool

/-- `copyFile` from `updater.go` (lines 526–550): open the source, create
the destination, copy the content, then copy the permission bits. -/
def copyFile (createOk : Bool) (fs : FS) (src dst : String) : Except String FS :=
  match fsRead fs src with
  | none => .error "failed to open source"
  | some srcFile =>
    if createOk then .ok (fsWrite fs dst ⟨srcFile.content, srcFile.mode⟩)
    else .error "failed to create destination"

/-- `verifyChecksum` from `updater.go` (lines 388–431): download the
expected digest to a temp file, read and trim it, hash the downloaded
file, and fail on inequality.  The checksum temp file is removed by a
deferred call, so the filesystem is unchanged on every path. -/
def verifyChecksum (env : InstallEnv) (fs : FS) (filePath : String) :
    Except String Unit :=
  match env.chksTmpCreate with
  | .error e => .error ("failed to create temp file for checksum: " ++ e)
  | .ok _ =>
    match env.chksDownload with
    | .error e => .error ("failed to download checksum: " ++ e)
    | .ok checksumData =>
      let expectedChecksum := goTrimSpace checksumData
      match fsRead fs filePath with
      | none => .error "failed to open file"
      | some f =>
        let actualChecksum := env.sha256hex f.content
        if actualChecksum ≠ expectedChecksum then
          .error ("checksum mismatch: expected " ++ expectedChecksum ++
            ", got " ++ actualChecksum)
        else .ok ()

/-- The effect of `os.Chmod(tmpPath, 0o755)` on the model filesystem. -/
def chmodTmp (fs : FS) (tmpPath : String) : FS :=
  match fsRead fs tmpPath with
  | some f => fsWrite fs tmpPath ⟨f.content, 493⟩
  | none => fs

/-- The backup-and-rename tail of `downloadAndReplace` (lines 370–385):
copy the live binary to `<path>.backup`, then rename the temp file onto
the live path; the deferred removal of the temp file runs on every exit,
and the backup path is returned even when the rename fails. -/
def afterChmod (env : InstallEnv) (fs3 : FS) (tmpPath binaryPath : String)
    (flag : Bool) : DARResult :=
  match copyFile env.backupCreateOk fs3 binaryPath (binaryPath ++ ".backup") with
  | .error e => ⟨fsRemove fs3 tmpPath, "", some ("failed to create backup: " ++ e), flag⟩
  | .ok fs4 =>
    if env.renameOk then
      match fsRead fs4 tmpPath with
      | some tf =>
        ⟨fsRemove (fsWrite (fsRemove fs4 tmpPath) binaryPath tf) tmpPath,
         binaryPath ++ ".backup", none, flag⟩
      | none =>
        ⟨fsRemove fs4 tmpPath, binaryPath ++ ".backup",
         some "failed to replace binary", flag⟩
    else
      ⟨fsRemove fs4 tmpPath, binaryPath ++ ".backup",
       some "failed to replace binary", flag⟩

/-- The tail of `downloadAndReplace` after checksum verification
(lines 365–385): chmod the temp file to 0o755, then back up and swap. -/
def afterChecksum (env : InstallEnv) (fs : FS) (tmpPath binaryPath : String)
    (flag : Bool) : DARResult :=
  if env.chmodOk then
    afterChmod env (chmodTmp fs tmpPath) tmpPath binaryPath flag
  else ⟨fsRemove fs tmpPath, "", some "failed to make binary executable", flag⟩

/-- `downloadAndReplace` from `updater.go` (lines 321–385). -/
def downloadAndReplace (env : InstallEnv) (fs0 : FS)
    (downloadURL checksumURL : String) : DARResult :=
  match env.execPath with
  | .error e => ⟨fs0, "", some ("failed to get current binary path: " ++ e), false⟩
  | .ok _ =>
    match env.resolvedPath with
    | .error e => ⟨fs0, "", some ("failed to resolve binary path: " ++ e), false⟩
    | .ok binaryPath =>
      if env.writePermOk then
        match env.tmpCreate with
        | .error e => ⟨fs0, "", some ("failed to create temp file: " ++ e), false⟩
        | .ok tmpPath =>
          match env.download with
          | .error e =>
            ⟨fsRemove (fsWrite fs0 tmpPath ⟨[], 384⟩) tmpPath, "",
             some ("failed to download binary: " ++ e), false⟩
          | .ok bytes =>
            let fs2 := fsWrite fs0 tmpPath ⟨bytes, 384⟩
            if checksumURL ≠ "" then
              match verifyChecksum env fs2 tmpPath with
              | .error e =>
                ⟨fsRemove fs2 tmpPath, "",
                 some ("checksum verification failed: " ++ e), true⟩
              | .ok _ => afterChecksum env fs2 tmpPath binaryPath true
            else afterChecksum env fs2 tmpPath binaryPath false
      else ⟨fs0, "", some "insufficient permissions to update binary", false⟩

/-- `PerformUpgrade` from `updater.go` (lines 249–277): after the summary
is printed, a negative confirmation aborts with the cancellation error and
an empty backup path; a positive one delegates to `downloadAndReplace`
with an empty checksum URL. -/
def PerformUpgrade (env : InstallEnv) (fs0 : FS) (updateInfo : UpdateInfo)
    (confirm : String → Bool) : DARResult :=
  if !(confirm "Do you want to upgrade now?") then
    ⟨fs0, "", some "upgrade cancelled by user", false⟩
  else downloadAndReplace env fs0 updateInfo.DownloadURL ""

/-! ## Orchestrator (translated from `updater.go`) -/

/-- `getAssetNameForPlatform` from `updater.go` (lines 494–509),
parameterized by the build platform. -/
def getAssetNameForPlatform (goos goarch : String) : String :=
  let arch := if goarch = "amd64" then "x86_64"
    else if goarch = "386" then "i386" else goarch
  goos ++ "_" ++ arch

/-- The asset-selection loop of `GetUpdateInfo` (lines 210–220): starting
from empty download URL and asset name, take the first asset whose name
contains the platform hint and stop. -/
def findAsset (assets : List Asset) (assetName : String) : String × String :=
  match assets with
  | [] => ("", "")
  | asset :: rest =>
    if goContains asset.Name assetName then (asset.BrowserDownloadURL, asset.Name)
    else findAsset rest assetName

/-- Result of `CheckForUpdate`: the notification (or hard error), the
cache state after the call, and whether the release source was queried. -/
structure CFUResult where
  notification : Except String UpdateNotification
  cache : Option UpdateCache
  fetched : Bool

/-- The version-comparison tail of `CheckForUpdate` (lines 127–165):
compare, persist the outcome to the cache, and report. -/
def checkCompare (gh : GHEnv) (now : Int) (current : Version)
    (release : Release) (latest : Version) : CFUResult :=
  if !(latest.isNewerThan current) then
    ⟨.ok ⟨false, current.render, latest.render, false, ""⟩,
     some ⟨now, false, current.render, latest.render, false, "", false⟩, true⟩
  else
    ⟨.ok ⟨true, current.render, latest.render, release.Prerelease,
        gh.GetReleaseURL release.TagName⟩,
     some ⟨now, true, current.render, latest.render, release.Prerelease,
        gh.GetReleaseURL release.TagName, false⟩, true⟩

/-- Parsing of the fetched release tag in `CheckForUpdate`
(lines 121–125): an unparsable remote tag is a hard error. -/
def checkTag (gh : GHEnv) (now : Int) (cache : Option UpdateCache)
    (current : Version) (release : Release) : CFUResult :=
  match ParseVersion release.TagName with
  | none => ⟨.error ("failed to parse latest version " ++ release.TagName), cache, true⟩
  | some latest => checkCompare gh now current release latest

/-- The channel-resolving fetch of `CheckForUpdate` (lines 104–119): the
stable feed for the empty channel, the pre-release feed otherwise; a
fetch failure is a hard error. -/
def checkRelease (gh : GHEnv) (now : Int) (cache : Option UpdateCache)
    (current : Version) (channel : String) : CFUResult :=
  match (if determineChannel current channel = "" then gh.GetLatestRelease
         else gh.GetLatestPreRelease (determineChannel current channel)) with
  | .error e => ⟨.error ("failed to fetch latest release: " ++ e), cache, true⟩
  | .ok release => checkTag gh now cache current release

/-- The cache-miss tail of `CheckForUpdate` (lines 96–165): parse the
current version (an unparsable one yields `Available = false` with no
error and no cache write), resolve the channel, fetch and parse the
latest release, compare, and persist the outcome. -/
def checkFresh (gh : GHEnv) (now : Int) (cache : Option UpdateCache)
    (currentVersion channel : String) : CFUResult :=
  match ParseVersion currentVersion with
  | none => ⟨.ok ⟨false, "", "", false, ""⟩, cache, false⟩
  | some current => checkRelease gh now cache current channel

/-- `CheckForUpdate` from `updater.go` (lines 82–165): a cache entry that
is not yet due for a re-check is returned as-is, projected to a
notification, with no release-source query. -/
def CheckForUpdate (gh : GHEnv) (interval now : Int) (cache : Option UpdateCache)
    (currentVersion channel : String) : CFUResult :=
  match cache with
  | some c =>
    if !(shouldCheckForUpdate interval now (some c)) then
      ⟨.ok ⟨c.UpdateAvailable, c.CurrentVersion, c.LatestVersion,
          c.IsPreRelease, c.ReleaseURL⟩, some c, false⟩
    else checkFresh gh now (some c) currentVersion channel
  | none => checkFresh gh now none currentVersion channel

/-- Result of `GetUpdateInfo`: the returned value (or hard error) and the
cache state after the call. -/
structure GUIResult where
  result : Except String (Option UpdateInfo)
  cache : Option UpdateCache

/-- The asset-resolution tail of `GetUpdateInfo` (lines 209–245): resolve
the platform asset, fail if none matches, otherwise persist the cache
entry and return the update description. -/
def guiAsset (gh : GHEnv) (goos goarch : String) (now : Int)
    (cache : Option UpdateCache) (current latest : Version)
    (release : Release) : GUIResult :=
  if (findAsset release.Assets (getAssetNameForPlatform goos goarch)).1 = "" then
    ⟨.error ("no binary found for platform " ++ goos ++ "/" ++ goarch), cache⟩
  else
    ⟨.ok (some ⟨current.render, latest.render, gh.GetReleaseURL release.TagName,
        release.Body, (findAsset release.Assets (getAssetNameForPlatform goos goarch)).1,
        (findAsset release.Assets (getAssetNameForPlatform goos goarch)).2,
        release.Prerelease⟩),
     some ⟨now, true, current.render, latest.render, release.Prerelease,
        gh.GetReleaseURL release.TagName, false⟩⟩

/-- The comparison step of `GetUpdateInfo` (lines 200–207). -/
def guiCompare (gh : GHEnv) (goos goarch : String) (now : Int)
    (cache : Option UpdateCache) (current latest : Version)
    (release : Release) : GUIResult :=
  if !(latest.isNewerThan current) then ⟨.ok none, cache⟩
  else guiAsset gh goos goarch now cache current latest release

/-- The tag-parsing step of `GetUpdateInfo` (lines 194–198). -/
def guiTag (gh : GHEnv) (goos goarch : String) (now : Int)
    (cache : Option UpdateCache) (current : Version)
    (release : Release) : GUIResult :=
  match ParseVersion release.TagName with
  | none => ⟨.error ("failed to parse latest version " ++ release.TagName), cache⟩
  | some latest => guiCompare gh goos goarch now cache current latest release

/-- The channel-resolving fetch of `GetUpdateInfo` (lines 177–192). -/
def guiRelease (gh : GHEnv) (goos goarch : String) (now : Int)
    (cache : Option UpdateCache) (current : Version)
    (channel : String) : GUIResult :=
  match (if determineChannel current channel = "" then gh.GetLatestRelease
         else gh.GetLatestPreRelease (determineChannel current channel)) with
  | .error e => ⟨.error ("failed to fetch latest release: " ++ e), cache⟩
  | .ok release => guiTag gh goos goarch now cache current release

/-- `GetUpdateInfo` from `updater.go` (lines 169–245).  It never reads the
cache; it writes it only on the update-available path. -/
def GetUpdateInfo (gh : GHEnv) (goos goarch : String) (now : Int)
    (cache : Option UpdateCache) (currentVersion channel : String) : GUIResult :=
  match ParseVersion currentVersion with
  | none => ⟨.ok none, cache⟩
  | some current => guiRelease gh goos goarch now cache current channel

/-! ## Concrete fixtures used by closed instances -/

/-- A release whose asset list names an archive before the bare binary for
the same platform, mirroring the repository test
`TestGetUpdateInfo_AssetSelection`. -/
def relArchiveFirst : Release :=
  ⟨"v1.1.0", "notes", false,
   [⟨"tasklog_1.1.0_linux_arm64.tar.gz", "https://example.com/download.tar.gz"⟩,
    ⟨"tasklog_1.1.0_linux_arm64", "https://example.com/download-binary"⟩]⟩

/-- A release source serving `relArchiveFirst` as the latest stable release. -/
def ghArchiveFirst : GHEnv :=
  ⟨.ok relArchiveFirst, fun _ => .error "no pre-release",
   fun tag => "https://github.com/Binsabbar/tasklog/releases/tag/" ++ tag⟩

/-- A release source whose every query fails. -/
def ghOffline : GHEnv :=
  ⟨.error "offline", fun _ => .error "offline", fun tag => tag⟩

/-- A cache entry recording an available update at instant 0. -/
def cacheAvail : UpdateCache :=
  ⟨0, true, "0.9.0", "1.0.0", false, "https://example.com/rel", false⟩

/-- A cache entry recording no update at instant 0. -/
def cacheNone : UpdateCache :=
  ⟨0, false, "1.0.0", "1.0.0", false, "", false⟩

/-- An install environment in which everything up to the final rename
succeeds and the rename fails. -/
def envRenameFails : InstallEnv :=
  ⟨.ok "/usr/local/bin/tasklog", .ok "/usr/local/bin/tasklog", true,
   .ok "/tmp/tasklog-update-1", .ok [7, 7, 7], .ok "/tmp/tasklog-checksum-1",
   .ok "cafe\n", fun _ => "deadbeef", true, true, false⟩

/-- A filesystem holding only the live executable. -/
def fsLive : FS := [("/usr/local/bin/tasklog", ⟨[1, 2, 3], 493⟩)]

/-- A concrete update description used by closed instances. -/
def infoW : UpdateInfo :=
  ⟨"1.0.0", "1.1.0", "https://example.com/rel", "notes",
   "https://example.com/download-binary", "tasklog_1.1.0_linux_arm64", false⟩

/-! ## Filesystem lemmas -/

theorem fsRead_fsRemove_self (fs : FS) (p : String) :
    fsRead (fsRemove fs p) p = none := by
  induction fs with
  | nil => rfl
  | cons e rest ih =>
    obtain ⟨q, f⟩ := e
    by_cases h : q = p <;> simp [fsRemove, h, fsRead, ih]

theorem fsRead_fsRemove_ne (fs : FS) (p q : String) (h : q ≠ p) :
    fsRead (fsRemove fs p) q = fsRead fs q := by
  induction fs with
  | nil => rfl
  | cons e rest ih =>
    obtain ⟨r, f⟩ := e
    by_cases hr : r = p
    · subst hr
      simp only [fsRemove, fsRead, if_true]
      rw [ih, if_neg (Ne.symm h)]
    · simp only [fsRemove, fsRead, if_neg hr]
      rw [ih]

theorem fsRead_fsWrite_self (fs : FS) (p : String) (f : File) :
    fsRead (fsWrite fs p f) p = some f := by
  simp [fsWrite, fsRead]

theorem fsRead_fsWrite_ne (fs : FS) (p q : String) (f : File) (h : q ≠ p) :
    fsRead (fsWrite fs p f) q = fsRead fs q := by
  simp only [fsWrite, fsRead]
  rw [if_neg (Ne.symm h), fsRead_fsRemove_ne fs p q h]

theorem append_backup_length (s : String) :
    (s ++ ".backup").length = s.length + 7 := by
  rw [String.length_append]
  rfl

theorem ne_append_backup (s : String) : s ≠ s ++ ".backup" := by
  intro h
  have hl := congrArg String.length h
  rw [append_backup_length] at hl
  omega

theorem append_backup_ne_empty (s : String) : s ++ ".backup" ≠ "" := by
  intro h
  have hl := congrArg String.length h
  rw [append_backup_length] at hl
  have h0 : ("" : String).length = 0 := rfl
  rw [h0] at hl
  omega

/-! ## Helper lemmas -/

theorem splitOnChar_ne_nil (sep : Char) (l : List Char) : splitOnChar sep l ≠ [] := by
  cases l with
  | nil => simp [splitOnChar]
  | cons c cs =>
    simp only [splitOnChar]
    by_cases h : c = sep
    · simp [h]
    · simp only [if_neg h]
      cases splitOnChar sep cs <;> simp

theorem goSplit_length_pos (s : String) (sep : Char) : (goSplit s sep).length > 0 := by
  simp only [goSplit, List.length_map]
  exact List.length_pos.mpr (splitOnChar_ne_nil sep s.toList)

theorem afterChmod_checksumVerified (env : InstallEnv) (fs3 : FS)
    (tmpPath binaryPath : String) (flag : Bool) :
    (afterChmod env fs3 tmpPath binaryPath flag).checksumVerified = flag := by
  unfold afterChmod
  repeat' split <;> try rfl

theorem afterChecksum_checksumVerified (env : InstallEnv) (fs : FS)
    (tmpPath binaryPath : String) (flag : Bool) :
    (afterChecksum env fs tmpPath binaryPath flag).checksumVerified = flag := by
  unfold afterChecksum
  split
  · exact afterChmod_checksumVerified ..
  · rfl

theorem downloadAndReplace_empty_checksum_flag (env : InstallEnv) (fs0 : FS)
    (url : String) :
    (downloadAndReplace env fs0 url "").checksumVerified = false := by
  unfold downloadAndReplace
  repeat' split <;> try rfl
  all_goals first
    | rfl
    | (exact afterChecksum_checksumVerified ..)
    | simp_all

/-! ## Claim C1 -/

/-- C1: the claim states that whenever a release carries both an archived
asset and a bare-binary asset whose names both contain the platform hint,
`GetUpdateInfo` selects the bare binary regardless of candidate order.
The code instead returns the first matching candidate: with the archive
listed first (exactly the situation of the repository test
`TestGetUpdateInfo_AssetSelection`), the archive is selected. -/
theorem GetUpdateInfo_picks_archive_when_listed_first :
    GetUpdateInfo ghArchiveFirst "linux" "arm64" 0 none "1.0.0" "" =
      ⟨Except.ok (some ⟨"1.0.0", "1.1.0",
          "https://github.com/Binsabbar/tasklog/releases/tag/v1.1.0", "notes",
          "https://example.com/download.tar.gz", "tasklog_1.1.0_linux_arm64.tar.gz",
          false⟩),
       some ⟨0, true, "1.0.0", "1.1.0", false,
          "https://github.com/Binsabbar/tasklog/releases/tag/v1.1.0", false⟩⟩ := rfl

/-! ## Claim C6 -/

/-- C6: `shouldCheckForUpdate` returns true with no cache; for an existing
cache entry it returns false when the age equals the check interval
(inclusive boundary) and true when the age strictly exceeds it. -/
theorem shouldCheckForUpdate_boundary :
    (∀ interval now : Int, shouldCheckForUpdate interval now none = true)
    ∧ (∀ (interval now : Int) (c : UpdateCache), now - c.LastCheck = interval →
        shouldCheckForUpdate interval now (some c) = false)
    ∧ (∀ (interval now : Int) (c : UpdateCache), interval < now - c.LastCheck →
        shouldCheckForUpdate interval now (some c) = true) := by
  refine ⟨fun _ _ => rfl, fun interval now c h => ?_, fun interval now c h => ?_⟩
  · rw [shouldCheckForUpdate]
    apply decide_eq_false
    omega
  · rw [shouldCheckForUpdate]
    apply decide_eq_true
    omega

/-- Witness for C6 at interval 24: no cache, age exactly 24, age 25. -/
theorem shouldCheckForUpdate_boundary_witness :
    shouldCheckForUpdate 24 0 none = true
    ∧ shouldCheckForUpdate 24 24 (some cacheNone) = false
    ∧ shouldCheckForUpdate 24 25 (some cacheNone) = true :=
  ⟨shouldCheckForUpdate_boundary.1 24 0,
   shouldCheckForUpdate_boundary.2.1 24 24 cacheNone (by decide),
   shouldCheckForUpdate_boundary.2.2 24 25 cacheNone (by decide)⟩

/-! ## Claim C7 -/

/-- C7: `determineChannel` is total and agrees everywhere with the policy
exactly as the claim states it (explicit non-stable override verbatim;
otherwise a recognized alpha/beta/rc pre-release channel of the running
version; otherwise the empty stable channel). -/
theorem determineChannel_matches_spec (v : Version) (cfg : String) :
    determineChannel v cfg = DetermineChannelSpec v cfg := by
  unfold determineChannel DetermineChannelSpec
  by_cases h1 : cfg ≠ "" ∧ cfg ≠ "stable"
  · simp [h1]
  · have hp := goSplit_length_pos v.prerelease '.'
    by_cases h2 : v.prerelease = ""
    · simp [h1, h2]
    · by_cases h3 : (goSplit v.prerelease '.').headD "" = "alpha"
          ∨ (goSplit v.prerelease '.').headD "" = "beta"
          ∨ (goSplit v.prerelease '.').headD "" = "rc"
      · simp [h1, h2, h3, hp]
      · simp [h1, h2, h3, hp]

/-! ## Claim C8 -/

/-- C8: a negative confirmation makes `PerformUpgrade` return an empty
backup path and the cancellation error — whose text contains
"cancelled by user" — with the filesystem untouched. -/
theorem PerformUpgrade_cancelled (env : InstallEnv) (fs0 : FS)
    (info : UpdateInfo) (confirm : String → Bool)
    (h : confirm "Do you want to upgrade now?" = false) :
    PerformUpgrade env fs0 info confirm =
      ⟨fs0, "", some "upgrade cancelled by user", false⟩
    ∧ ∃ pre post, "upgrade cancelled by user" = pre ++ "cancelled by user" ++ post := by
  refine ⟨?_, ⟨"upgrade ", "", rfl⟩⟩
  simp [PerformUpgrade, h]

/-- Witness for C8: a concrete always-no confirmation. -/
theorem PerformUpgrade_cancelled_witness :
    PerformUpgrade envRenameFails fsLive infoW (fun _ => false) =
      ⟨fsLive, "", some "upgrade cancelled by user", false⟩ :=
  (PerformUpgrade_cancelled envRenameFails fsLive infoW (fun _ => false) rfl).1

/-! ## Claim C9 -/

/-- C9: `PerformUpgrade` always calls `downloadAndReplace` with an empty
checksum URL, so no execution of `PerformUpgrade` — whatever the
environment, filesystem, update info or confirmation — ever enters the
checksum-verification step. -/
theorem PerformUpgrade_skips_checksum (env : InstallEnv) (fs0 : FS)
    (info : UpdateInfo) (confirm : String → Bool) :
    (PerformUpgrade env fs0 info confirm).checksumVerified = false := by
  unfold PerformUpgrade
  split
  · rfl
  · exact downloadAndReplace_empty_checksum_flag env fs0 info.DownloadURL

/-! ## Claim C2 -/

theorem afterChmod_spec (env : InstallEnv) (fs3 : FS) (tmpPath binaryPath : String)
    (flag : Bool) (live : File)
    (hcp : env.backupCreateOk = true)
    (hlive : fsRead fs3 binaryPath = some live)
    (htb : tmpPath ≠ binaryPath)
    (htbk : tmpPath ≠ binaryPath ++ ".backup") :
    fsRead (afterChmod env fs3 tmpPath binaryPath flag).fs (binaryPath ++ ".backup")
      = some live
    ∧ (env.renameOk = false →
        (afterChmod env fs3 tmpPath binaryPath flag).backupPath = binaryPath ++ ".backup"
        ∧ (afterChmod env fs3 tmpPath binaryPath flag).err.isSome = true
        ∧ fsRead (afterChmod env fs3 tmpPath binaryPath flag).fs binaryPath = some live) := by
  have hbk : binaryPath ≠ binaryPath ++ ".backup" := ne_append_backup binaryPath
  have hcpy : copyFile env.backupCreateOk fs3 binaryPath (binaryPath ++ ".backup")
      = Except.ok (fsWrite fs3 (binaryPath ++ ".backup") live) := by
    unfold copyFile
    rw [hlive, hcp]
    rfl
  cases hr : env.renameOk with
  | false =>
    have hres2 : afterChmod env fs3 tmpPath binaryPath flag =
        ⟨fsRemove (fsWrite fs3 (binaryPath ++ ".backup") live) tmpPath,
         binaryPath ++ ".backup", some "failed to replace binary", flag⟩ := by
      unfold afterChmod
      rw [hcpy, hr]
      simp
    rw [hres2]
    refine ⟨?_, fun _ => ⟨rfl, rfl, ?_⟩⟩
    · rw [fsRead_fsRemove_ne _ _ _ (Ne.symm htbk), fsRead_fsWrite_self]
    · rw [fsRead_fsRemove_ne _ _ _ (Ne.symm htb),
        fsRead_fsWrite_ne _ _ _ _ hbk, hlive]
  | true =>
    refine ⟨?_, fun hcontra => Bool.noConfusion hcontra⟩
    cases hrt : fsRead (fsWrite fs3 (binaryPath ++ ".backup") live) tmpPath with
    | none =>
      have hres2 : afterChmod env fs3 tmpPath binaryPath flag =
          ⟨fsRemove (fsWrite fs3 (binaryPath ++ ".backup") live) tmpPath,
           binaryPath ++ ".backup", some "failed to replace binary", flag⟩ := by
        unfold afterChmod
        rw [hcpy, hr]
        simp [hrt]
      rw [hres2, fsRead_fsRemove_ne _ _ _ (Ne.symm htbk), fsRead_fsWrite_self]
    | some tf =>
      have hres2 : afterChmod env fs3 tmpPath binaryPath flag =
          ⟨fsRemove (fsWrite (fsRemove (fsWrite fs3 (binaryPath ++ ".backup") live)
              tmpPath) binaryPath tf) tmpPath,
           binaryPath ++ ".backup", none, flag⟩ := by
        unfold afterChmod
        rw [hcpy, hr]
        simp [hrt]
      rw [hres2, fsRead_fsRemove_ne _ _ _ (Ne.symm htbk),
        fsRead_fsWrite_ne _ _ _ _ (Ne.symm hbk),
        fsRead_fsRemove_ne _ _ _ (Ne.symm htbk), fsRead_fsWrite_self]

/-- C2: in a run of `downloadAndReplace` that reaches the replacement step
(every earlier step succeeded), the backup at `<binaryPath>.backup` is a
copy of the pre-upgrade executable — content and permission bits — and it
is present in the final state whether or not the rename succeeds; if the
final rename fails, the call returns the (non-empty) backup path together
with an error, and the live executable is unchanged from before the
call. -/
theorem downloadAndReplace_backup_before_rename
    (env : InstallEnv) (fs0 : FS) (url curl binPath tmp : String)
    (bytes : Bytes) (live : File)
    (hexec : ∃ p, env.execPath = Except.ok p)
    (hres : env.resolvedPath = Except.ok binPath)
    (hperm : env.writePermOk = true)
    (htmp : env.tmpCreate = Except.ok tmp)
    (hdl : env.download = Except.ok bytes)
    (hchk : (if curl ≠ "" then verifyChecksum env (fsWrite fs0 tmp ⟨bytes, 384⟩) tmp
             else Except.ok ()) = Except.ok ())
    (hchmod : env.chmodOk = true)
    (hcp : env.backupCreateOk = true)
    (hlive : fsRead fs0 binPath = some live)
    (htb : tmp ≠ binPath)
    (htbk : tmp ≠ binPath ++ ".backup") :
    fsRead (downloadAndReplace env fs0 url curl).fs (binPath ++ ".backup") = some live
    ∧ (env.renameOk = false →
        (downloadAndReplace env fs0 url curl).backupPath = binPath ++ ".backup"
        ∧ (downloadAndReplace env fs0 url curl).backupPath ≠ ""
        ∧ (downloadAndReplace env fs0 url curl).err.isSome = true
        ∧ fsRead (downloadAndReplace env fs0 url curl).fs binPath = some live) := by
  obtain ⟨p, hp⟩ := hexec
  have hchm : chmodTmp (fsWrite fs0 tmp ⟨bytes, 384⟩) tmp
      = fsWrite (fsWrite fs0 tmp ⟨bytes, 384⟩) tmp ⟨bytes, 493⟩ := by
    unfold chmodTmp
    rw [fsRead_fsWrite_self]
  have hlive3 : fsRead (fsWrite (fsWrite fs0 tmp ⟨bytes, 384⟩) tmp ⟨bytes, 493⟩) binPath
      = some live := by
    rw [fsRead_fsWrite_ne _ _ _ _ (Ne.symm htb),
      fsRead_fsWrite_ne _ _ _ _ (Ne.symm htb), hlive]
  have key : ∀ flag : Bool,
      fsRead (afterChecksum env (fsWrite fs0 tmp ⟨bytes, 384⟩) tmp binPath flag).fs
          (binPath ++ ".backup") = some live
      ∧ (env.renameOk = false →
          (afterChecksum env (fsWrite fs0 tmp ⟨bytes, 384⟩) tmp binPath flag).backupPath
              = binPath ++ ".backup"
          ∧ (afterChecksum env (fsWrite fs0 tmp ⟨bytes, 384⟩) tmp binPath flag).err.isSome
              = true
          ∧ fsRead (afterChecksum env (fsWrite fs0 tmp ⟨bytes, 384⟩) tmp binPath flag).fs
              binPath = some live) := by
    intro flag
    have hace : afterChecksum env (fsWrite fs0 tmp ⟨bytes, 384⟩) tmp binPath flag
        = afterChmod env (fsWrite (fsWrite fs0 tmp ⟨bytes, 384⟩) tmp ⟨bytes, 493⟩)
            tmp binPath flag := by
      unfold afterChecksum
      rw [hchmod, hchm]
      simp
    rw [hace]
    exact afterChmod_spec env _ tmp binPath flag live hcp hlive3 htb htbk
  by_cases hcurl : curl = ""
  · have hred : downloadAndReplace env fs0 url curl
        = afterChecksum env (fsWrite fs0 tmp ⟨bytes, 384⟩) tmp binPath false := by
      simp [downloadAndReplace, hp, hres, hperm, htmp, hdl, hcurl]
    rw [hred]
    refine ⟨(key false).1, fun hr => ?_⟩
    obtain ⟨hb, he, hbin⟩ := (key false).2 hr
    exact ⟨hb, hb ▸ append_backup_ne_empty binPath, he, hbin⟩
  · have hv : verifyChecksum env (fsWrite fs0 tmp ⟨bytes, 384⟩) tmp = Except.ok () := by
      rw [if_pos hcurl] at hchk
      exact hchk
    have hred : downloadAndReplace env fs0 url curl
        = afterChecksum env (fsWrite fs0 tmp ⟨bytes, 384⟩) tmp binPath true := by
      simp [downloadAndReplace, hp, hres, hperm, htmp, hdl, hcurl, hv]
    rw [hred]
    refine ⟨(key true).1, fun hr => ?_⟩
    obtain ⟨hb, he, hbin⟩ := (key true).2 hr
    exact ⟨hb, hb ▸ append_backup_ne_empty binPath, he, hbin⟩

/-- Witness for C2: a concrete run in which every step succeeds except the
final rename. -/
theorem downloadAndReplace_backup_before_rename_witness :
    fsRead (downloadAndReplace envRenameFails fsLive "u" "").fs
        ("/usr/local/bin/tasklog" ++ ".backup") = some ⟨[1, 2, 3], 493⟩
    ∧ (downloadAndReplace envRenameFails fsLive "u" "").backupPath
        = "/usr/local/bin/tasklog" ++ ".backup"
    ∧ (downloadAndReplace envRenameFails fsLive "u" "").backupPath ≠ ""
    ∧ (downloadAndReplace envRenameFails fsLive "u" "").err.isSome = true
    ∧ fsRead (downloadAndReplace envRenameFails fsLive "u" "").fs
        "/usr/local/bin/tasklog" = some ⟨[1, 2, 3], 493⟩ := by
  have h := downloadAndReplace_backup_before_rename envRenameFails fsLive "u" ""
    "/usr/local/bin/tasklog" "/tmp/tasklog-update-1" [7, 7, 7] ⟨[1, 2, 3], 493⟩
    ⟨"/usr/local/bin/tasklog", rfl⟩ rfl rfl rfl rfl rfl rfl rfl rfl
    (by decide) (by decide)
  obtain ⟨hb, hne, he, hbin⟩ := h.2 rfl
  exact ⟨h.1, hb, hne, he, hbin⟩

/-! ## Claim C3 -/

/-- C3: with a non-empty checksum URL, a digest mismatch makes
`downloadAndReplace` fail with a checksum-mismatch error before any
backup or rename: the returned backup path is empty, the live executable
is unchanged, and the temp file has been removed. -/
theorem downloadAndReplace_checksum_mismatch_aborts
    (env : InstallEnv) (fs0 : FS) (url curl binPath tmp : String)
    (bytes : Bytes) (raw : String)
    (hexec : ∃ p, env.execPath = Except.ok p)
    (hres : env.resolvedPath = Except.ok binPath)
    (hperm : env.writePermOk = true)
    (htmp : env.tmpCreate = Except.ok tmp)
    (hdl : env.download = Except.ok bytes)
    (hcurl : curl ≠ "")
    (hct : ∃ q, env.chksTmpCreate = Except.ok q)
    (hcd : env.chksDownload = Except.ok raw)
    (hmm : env.sha256hex bytes ≠ goTrimSpace raw)
    (htb : tmp ≠ binPath) :
    (downloadAndReplace env fs0 url curl).err =
      some ("checksum verification failed: " ++ ("checksum mismatch: expected "
        ++ goTrimSpace raw ++ ", got " ++ env.sha256hex bytes))
    ∧ (downloadAndReplace env fs0 url curl).backupPath = ""
    ∧ fsRead (downloadAndReplace env fs0 url curl).fs binPath = fsRead fs0 binPath
    ∧ fsRead (downloadAndReplace env fs0 url curl).fs tmp = none := by
  obtain ⟨p, hp⟩ := hexec
  obtain ⟨q, hq⟩ := hct
  have hv : verifyChecksum env (fsWrite fs0 tmp ⟨bytes, 384⟩) tmp
      = Except.error ("checksum mismatch: expected " ++ goTrimSpace raw
        ++ ", got " ++ env.sha256hex bytes) := by
    unfold verifyChecksum
    rw [hq, hcd]
    simp [fsRead_fsWrite_self, hmm]
  have hred : downloadAndReplace env fs0 url curl =
      ⟨fsRemove (fsWrite fs0 tmp ⟨bytes, 384⟩) tmp, "",
       some ("checksum verification failed: " ++ ("checksum mismatch: expected "
         ++ goTrimSpace raw ++ ", got " ++ env.sha256hex bytes)), true⟩ := by
    simp [downloadAndReplace, hp, hres, hperm, htmp, hdl, hcurl, hv]
  rw [hred]
  refine ⟨rfl, rfl, ?_, ?_⟩
  · rw [fsRead_fsRemove_ne _ _ _ (Ne.symm htb),
      fsRead_fsWrite_ne _ _ _ _ (Ne.symm htb)]
  · exact fsRead_fsRemove_self ..

/-- Witness for C3: a concrete run in which the downloaded bytes hash to
"deadbeef" while the checksum file says "cafe". -/
theorem downloadAndReplace_checksum_mismatch_witness :
    (downloadAndReplace envRenameFails fsLive "u" "https://example.com/checksums.txt").err
      = some ("checksum verification failed: " ++ ("checksum mismatch: expected "
        ++ goTrimSpace "cafe\n" ++ ", got " ++ envRenameFails.sha256hex [7, 7, 7]))
    ∧ (downloadAndReplace envRenameFails fsLive "u"
        "https://example.com/checksums.txt").backupPath = ""
    ∧ fsRead (downloadAndReplace envRenameFails fsLive "u"
        "https://example.com/checksums.txt").fs "/usr/local/bin/tasklog"
      = fsRead fsLive "/usr/local/bin/tasklog"
    ∧ fsRead (downloadAndReplace envRenameFails fsLive "u"
        "https://example.com/checksums.txt").fs "/tmp/tasklog-update-1" = none :=
  downloadAndReplace_checksum_mismatch_aborts envRenameFails fsLive "u"
    "https://example.com/checksums.txt" "/usr/local/bin/tasklog"
    "/tmp/tasklog-update-1" [7, 7, 7] "cafe\n"
    ⟨"/usr/local/bin/tasklog", rfl⟩ rfl rfl rfl rfl (by decide)
    ⟨"/tmp/tasklog-checksum-1", rfl⟩ rfl (by decide) (by decide)

/-! ## Claim C4 -/

/-- Counterexample to C4 as stated: with a fresh cache entry recording an
available update, `CheckForUpdate` on the unparsable current version
"dev" returns the cached notification — whose `Available` flag is true,
not false. -/
theorem CheckForUpdate_unparsable_counterexample :
    ParseVersion "dev" = none
    ∧ (CheckForUpdate ghOffline 24 0 (some cacheAvail) "dev" "").notification =
        Except.ok ⟨true, "0.9.0", "1.0.0", false, "https://example.com/rel"⟩
    ∧ (true : Bool) ≠ false :=
  ⟨rfl, rfl, by decide⟩

/-- C4 (amended): for every cache state, `CheckForUpdate` on an unparsable
current version returns without error; and whenever no fresh cache entry
short-circuits the check (an absent or due-for-re-check cache), the
notification has `Available = false` and the cache is left untouched. -/
theorem CheckForUpdate_unparsable_never_fails
    (gh : GHEnv) (interval now : Int) (cache : Option UpdateCache)
    (cv ch : String) (hp : ParseVersion cv = none) :
    (∃ n, (CheckForUpdate gh interval now cache cv ch).notification = Except.ok n)
    ∧ (shouldCheckForUpdate interval now cache = true →
        CheckForUpdate gh interval now cache cv ch =
          ⟨Except.ok ⟨false, "", "", false, ""⟩, cache, false⟩) := by
  have hfresh : checkFresh gh now cache cv ch =
      ⟨Except.ok ⟨false, "", "", false, ""⟩, cache, false⟩ := by
    unfold checkFresh
    rw [hp]
  cases cache with
  | none =>
    refine ⟨⟨⟨false, "", "", false, ""⟩, ?_⟩, fun _ => ?_⟩ <;>
      simp [CheckForUpdate, hfresh]
  | some c =>
    cases hs : shouldCheckForUpdate interval now (some c) with
    | true =>
      constructor
      · refine ⟨⟨false, "", "", false, ""⟩, ?_⟩
        simp [CheckForUpdate, hs, hfresh]
      · intro _
        simp [CheckForUpdate, hs, hfresh]
    | false =>
      constructor
      · refine ⟨⟨c.UpdateAvailable, c.CurrentVersion, c.LatestVersion,
          c.IsPreRelease, c.ReleaseURL⟩, ?_⟩
        simp [CheckForUpdate, hs]
      · intro hcontra
        exact Bool.noConfusion hcontra

/-- Witness for C4 (amended) at an absent cache and current version
"dev". -/
theorem CheckForUpdate_unparsable_witness :
    CheckForUpdate ghOffline 24 0 none "dev" "" =
      ⟨Except.ok ⟨false, "", "", false, ""⟩, none, false⟩ :=
  (CheckForUpdate_unparsable_never_fails ghOffline 24 0 none "dev" "" rfl).2 rfl

/-! ## Claim C5 -/

theorem checkFresh_available_cache (gh : GHEnv) (now : Int)
    (cache : Option UpdateCache) (cv ch : String) (n : UpdateNotification)
    (h1 : (checkFresh gh now cache cv ch).notification = Except.ok n)
    (h2 : n.Available = true) :
    (checkFresh gh now cache cv ch).cache =
      some ⟨now, true, n.CurrentVersion, n.LatestVersion, n.IsPreRelease,
        n.ReleaseURL, false⟩ := by
  obtain ⟨na, ncv, nlv, np, nu⟩ := n
  simp only at h2
  subst h2
  cases hpv : ParseVersion cv with
  | none =>
    have he : checkFresh gh now cache cv ch =
        ⟨.ok ⟨false, "", "", false, ""⟩, cache, false⟩ := by
      unfold checkFresh
      rw [hpv]
    rw [he] at h1
    simp at h1
  | some current =>
    have he : checkFresh gh now cache cv ch
        = checkRelease gh now cache current ch := by
      unfold checkFresh
      rw [hpv]
    rw [he] at h1 ⊢
    cases hrel : (if determineChannel current ch = "" then gh.GetLatestRelease
        else gh.GetLatestPreRelease (determineChannel current ch)) with
    | error e =>
      have he2 : checkRelease gh now cache current ch =
          ⟨.error ("failed to fetch latest release: " ++ e), cache, true⟩ := by
        unfold checkRelease
        rw [hrel]
      rw [he2] at h1
      simp at h1
    | ok release =>
      have he2 : checkRelease gh now cache current ch
          = checkTag gh now cache current release := by
        unfold checkRelease
        rw [hrel]
      rw [he2] at h1 ⊢
      cases hpt : ParseVersion release.TagName with
      | none =>
        have ht : checkTag gh now cache current release =
            ⟨.error ("failed to parse latest version " ++ release.TagName),
             cache, true⟩ := by
          unfold checkTag
          rw [hpt]
        rw [ht] at h1
        simp at h1
      | some latest =>
        have ht : checkTag gh now cache current release
            = checkCompare gh now current release latest := by
          unfold checkTag
          rw [hpt]
        rw [ht] at h1 ⊢
        cases hnew : latest.isNewerThan current with
        | false =>
          have hcm : checkCompare gh now current release latest =
              ⟨.ok ⟨false, current.render, latest.render, false, ""⟩,
               some ⟨now, false, current.render, latest.render, false, "", false⟩,
               true⟩ := by
            unfold checkCompare
            rw [hnew]
            simp
          rw [hcm] at h1
          simp at h1
        | true =>
          have hcm : checkCompare gh now current release latest =
              ⟨.ok ⟨true, current.render, latest.render, release.Prerelease,
                  gh.GetReleaseURL release.TagName⟩,
               some ⟨now, true, current.render, latest.render, release.Prerelease,
                  gh.GetReleaseURL release.TagName, false⟩, true⟩ := by
            unfold checkCompare
            rw [hnew]
            simp
          rw [hcm] at h1 ⊢
          simp at h1
          simp [h1]

/-- C5: (1) a cache entry whose age does not exceed the check interval is
returned as its projection, with the cache untouched and no release-source
query; (2) consequently, after a call that queried the source and found an
update available, a second call within the check interval returns the
identical notification with no second query. -/
theorem CheckForUpdate_fresh_cache_projection :
    (∀ (gh : GHEnv) (interval now : Int) (c : UpdateCache) (cv ch : String),
        now - c.LastCheck ≤ interval →
        CheckForUpdate gh interval now (some c) cv ch =
          ⟨Except.ok ⟨c.UpdateAvailable, c.CurrentVersion, c.LatestVersion,
              c.IsPreRelease, c.ReleaseURL⟩, some c, false⟩)
    ∧ (∀ (gh : GHEnv) (interval now1 now2 : Int) (cache0 : Option UpdateCache)
          (cv ch : String) (n : UpdateNotification),
        (CheckForUpdate gh interval now1 cache0 cv ch).notification = Except.ok n →
        (CheckForUpdate gh interval now1 cache0 cv ch).fetched = true →
        n.Available = true →
        now2 - now1 ≤ interval →
        CheckForUpdate gh interval now2
            (CheckForUpdate gh interval now1 cache0 cv ch).cache cv ch
          = ⟨Except.ok n, (CheckForUpdate gh interval now1 cache0 cv ch).cache,
             false⟩) := by
  constructor
  · intro gh interval now c cv ch h
    have hs : shouldCheckForUpdate interval now (some c) = false := by
      rw [shouldCheckForUpdate]
      apply decide_eq_false
      omega
    simp [CheckForUpdate, hs]
  · intro gh interval now1 now2 cache0 cv ch n h1 hf h2 hle
    have hcf : CheckForUpdate gh interval now1 cache0 cv ch
        = checkFresh gh now1 cache0 cv ch := by
      cases cache0 with
      | none => rfl
      | some c =>
        cases hs : shouldCheckForUpdate interval now1 (some c) with
        | true => simp [CheckForUpdate, hs]
        | false => simp [CheckForUpdate, hs] at hf
    rw [hcf] at h1 ⊢
    have hc := checkFresh_available_cache gh now1 cache0 cv ch n h1 h2
    rw [hc]
    have hs2 : shouldCheckForUpdate interval now2
        (some ⟨now1, true, n.CurrentVersion, n.LatestVersion, n.IsPreRelease,
          n.ReleaseURL, false⟩) = false := by
      rw [shouldCheckForUpdate]
      apply decide_eq_false
      simp only
      omega
    obtain ⟨na, ncv, nlv, np, nu⟩ := n
    simp only at h2
    subst h2
    simp [CheckForUpdate, hs2]

/-- Witness for C5: a concrete fresh cache entry is projected unchanged. -/
theorem CheckForUpdate_fresh_cache_witness :
    CheckForUpdate ghOffline 24 10 (some cacheAvail) "0.9.0" "" =
      ⟨Except.ok ⟨true, "0.9.0", "1.0.0", false, "https://example.com/rel"⟩,
       some cacheAvail, false⟩ :=
  CheckForUpdate_fresh_cache_projection.1 ghOffline 24 10 cacheAvail "0.9.0" ""
    (by decide)

/-! ## Claim C10 -/

/-- C10: `GetUpdateInfo` never reads the cache — its returned result is
identical for any two cache states, with no interval throttling — and it
writes the cache exactly when it returns an available update, recording
that update. -/
theorem GetUpdateInfo_cache_independent
    (gh : GHEnv) (goos goarch : String) (now : Int)
    (cache1 cache2 : Option UpdateCache) (cv ch : String) :
    (GetUpdateInfo gh goos goarch now cache1 cv ch).result
      = (GetUpdateInfo gh goos goarch now cache2 cv ch).result
    ∧ ((∀ i, (GetUpdateInfo gh goos goarch now cache1 cv ch).result
          ≠ Except.ok (some i)) →
        (GetUpdateInfo gh goos goarch now cache1 cv ch).cache = cache1)
    ∧ (∀ i, (GetUpdateInfo gh goos goarch now cache1 cv ch).result
          = Except.ok (some i) →
        (GetUpdateInfo gh goos goarch now cache1 cv ch).cache =
          some ⟨now, true, i.CurrentVersion, i.LatestVersion, i.IsPreRelease,
            i.ReleaseURL, false⟩) := by
  cases hpv : ParseVersion cv with
  | none =>
    have h1 : ∀ cc : Option UpdateCache,
        GetUpdateInfo gh goos goarch now cc cv ch = ⟨.ok none, cc⟩ := by
      intro cc
      unfold GetUpdateInfo
      rw [hpv]
    rw [h1 cache1, h1 cache2]
    exact ⟨rfl, fun _ => rfl, fun i hi => by simp at hi⟩
  | some current =>
    have h1 : ∀ cc : Option UpdateCache, GetUpdateInfo gh goos goarch now cc cv ch
        = guiRelease gh goos goarch now cc current ch := by
      intro cc
      unfold GetUpdateInfo
      rw [hpv]
    rw [h1 cache1, h1 cache2]
    cases hrel : (if determineChannel current ch = "" then gh.GetLatestRelease
        else gh.GetLatestPreRelease (determineChannel current ch)) with
    | error e =>
      have h2 : ∀ cc : Option UpdateCache,
          guiRelease gh goos goarch now cc current ch
            = ⟨.error ("failed to fetch latest release: " ++ e), cc⟩ := by
        intro cc
        unfold guiRelease
        rw [hrel]
      rw [h2 cache1, h2 cache2]
      exact ⟨rfl, fun _ => rfl, fun i hi => by simp at hi⟩
    | ok release =>
      have h2 : ∀ cc : Option UpdateCache,
          guiRelease gh goos goarch now cc current ch
            = guiTag gh goos goarch now cc current release := by
        intro cc
        unfold guiRelease
        rw [hrel]
      rw [h2 cache1, h2 cache2]
      cases hpt : ParseVersion release.TagName with
      | none =>
        have h3 : ∀ cc : Option UpdateCache,
            guiTag gh goos goarch now cc current release
              = ⟨.error ("failed to parse latest version " ++ release.TagName),
                 cc⟩ := by
          intro cc
          unfold guiTag
          rw [hpt]
        rw [h3 cache1, h3 cache2]
        exact ⟨rfl, fun _ => rfl, fun i hi => by simp at hi⟩
      | some latest =>
        have h3 : ∀ cc : Option UpdateCache,
            guiTag gh goos goarch now cc current release
              = guiCompare gh goos goarch now cc current latest release := by
          intro cc
          unfold guiTag
          rw [hpt]
        rw [h3 cache1, h3 cache2]
        cases hnew : latest.isNewerThan current with
        | false =>
          have h4 : ∀ cc : Option UpdateCache,
              guiCompare gh goos goarch now cc current latest release
                = ⟨.ok none, cc⟩ := by
            intro cc
            unfold guiCompare
            rw [hnew]
            simp
          rw [h4 cache1, h4 cache2]
          exact ⟨rfl, fun _ => rfl, fun i hi => by simp at hi⟩
        | true =>
          have h4 : ∀ cc : Option UpdateCache,
              guiCompare gh goos goarch now cc current latest release
                = guiAsset gh goos goarch now cc current latest release := by
            intro cc
            unfold guiCompare
            rw [hnew]
            simp
          rw [h4 cache1, h4 cache2]
          by_cases hda : (findAsset release.Assets
              (getAssetNameForPlatform goos goarch)).1 = ""
          · have h5 : ∀ cc : Option UpdateCache,
                guiAsset gh goos goarch now cc current latest release
                  = ⟨.error ("no binary found for platform " ++ goos ++ "/"
                      ++ goarch), cc⟩ := by
              intro cc
              unfold guiAsset
              rw [if_pos hda]
            rw [h5 cache1, h5 cache2]
            exact ⟨rfl, fun _ => rfl, fun i hi => by simp at hi⟩
          · have h5 : ∀ cc : Option UpdateCache,
                guiAsset gh goos goarch now cc current latest release
                  = ⟨.ok (some ⟨current.render, latest.render,
                        gh.GetReleaseURL release.TagName, release.Body,
                        (findAsset release.Assets
                          (getAssetNameForPlatform goos goarch)).1,
                        (findAsset release.Assets
                          (getAssetNameForPlatform goos goarch)).2,
                        release.Prerelease⟩),
                     some ⟨now, true, current.render, latest.render,
                        release.Prerelease, gh.GetReleaseURL release.TagName,
                        false⟩⟩ := by
              intro cc
              unfold guiAsset
              rw [if_neg hda]
            rw [h5 cache1, h5 cache2]
            refine ⟨rfl, fun hni => absurd rfl (hni _), fun i hi => ?_⟩
            simp only at hi
            simp at hi
            simp [← hi]

/-- Witness for C10: with a failing release source, the cache passed in is
returned untouched. -/
theorem GetUpdateInfo_cache_independent_witness :
    (GetUpdateInfo ghOffline "linux" "arm64" 0 (some cacheNone) "1.0.0" "").cache
      = some cacheNone := by
  apply (GetUpdateInfo_cache_independent ghOffline "linux" "arm64" 0
    (some cacheNone) none "1.0.0" "").2.1
  intro i hi
  have hres : (GetUpdateInfo ghOffline "linux" "arm64" 0 (some cacheNone)
      "1.0.0" "").result = Except.error "failed to fetch latest release: offline" := rfl
  rw [hres] at hi
  exact Except.noConfusion hi
